import Mathlib

/-!
Verification of the philify prediction scoring and settlement engine.

Shallow embedding of `src/server.js` (v0.0.4): the scoring computation
`calculateScore` (price cache lookup, external fetch, scoring formula),
the prediction store operations reachable from the HTTP surface
(creation, deletion) and the settlement sweep `updateDuePredictions`.

Conventions of the embedding:
* JavaScript numbers are modelled as real numbers (`ℝ`).  Note that in
  `ℝ` division by zero yields `0`, while JavaScript yields
  `Infinity`/`NaN`; the spots where this matters are commented.
* Calendar dates (ISO `YYYY-MM-DD` strings, compared lexicographically
  by the source) are modelled as day numbers (`ℤ`); lexicographic order
  of ISO date strings agrees with numeric order of day numbers, and the
  millisecond difference of the source divided by `86400000` is exactly the
  day-number difference.
* Timestamps (`Date.now()`, milliseconds) are modelled as `ℤ`.
* The external CoinGecko fetch is modelled by an oracle
  `fetch : CacheKey → FetchOutcome`, fixed over the span of time a
  theorem talks about; its failure constructors correspond to a network
  error (rejected promise), a non-2xx HTTP status, and a malformed
  response body.
* `try { ... } catch { return null }` is modelled by an `Except` result
  collapsed to an `Option`.
-/

namespace Philify

noncomputable section

/-! ## The scoring formula (src/server.js, `calculateScore`)

The arithmetic part of `calculateScore`, after `actualPrice` has been
resolved.  Each helper mirrors one local constant of the source. -/

/-- Source: `Math.abs(predictedPrice - actualPrice) / actualPrice * 100`. -/
def percentageError (predictedPrice actualPrice : ℝ) : ℝ :=
  |predictedPrice - actualPrice| / actualPrice * 100

/-- Source: `Math.pow(daysDiff + 1, 0.5) / Math.pow(365 + 1, 0.5)`. -/
def timeWeight (daysDiff : ℝ) : ℝ :=
  (daysDiff + 1) ^ (0.5 : ℝ) / ((365 : ℝ) + 1) ^ (0.5 : ℝ)

/-- Source: `daysDiff <= 7 ? (7 - daysDiff) * 0.1 : 0`. -/
def shortTermBonus (daysDiff : ℝ) : ℝ :=
  if daysDiff ≤ 7 then (7 - daysDiff) * 0.1 else 0

/-- Source: `daysDiff <= 7 && percentageError < 5 ? 20 : 0`. -/
def accuracyBonus (daysDiff pctErr : ℝ) : ℝ :=
  if daysDiff ≤ 7 ∧ pctErr < 5 then 20 else 0

/-- Source: `let score = Math.max(0, 100 - percentageError) * (1 + timeWeight
+ shortTermBonus) + accuracyBonus; score = Math.max(0, Math.min(100, score))`. -/
def scoreFormula (predictedPrice actualPrice daysDiff : ℝ) : ℝ :=
  max 0 (min 100
    (max 0 (100 - percentageError predictedPrice actualPrice) *
        (1 + timeWeight daysDiff + shortTermBonus daysDiff) +
      accuracyBonus daysDiff (percentageError predictedPrice actualPrice)))

/-! ## The scoring formula as the spec words it (spec §4.2) -/

/-- Modelled from the spec: `clamp(raw, 0, 100)`. -/
def clamp (x lo hi : ℝ) : ℝ := max lo (min hi x)

/-- Modelled from the spec (§4.2, steps 1-6), for comparison with
`scoreFormula`: `timeWeight = sqrt(daysDiff + 1) / sqrt(366)` and
`score = clamp(max(0, 100 - percentageError) * (1 + timeWeight +
shortTermBonus) + accuracyBonus, 0, 100)`. -/
def specScore (predictedPrice actualPrice daysDiff : ℝ) : ℝ :=
  clamp
    (max 0 (100 - |predictedPrice - actualPrice| / actualPrice * 100) *
        (1 + Real.sqrt (daysDiff + 1) / Real.sqrt 366 +
          (if daysDiff ≤ 7 then (7 - daysDiff) * 0.1 else 0)) +
      (if daysDiff ≤ 7 ∧ |predictedPrice - actualPrice| / actualPrice * 100 < 5
        then 20 else 0))
    0 100

/-- Claim C1: for every predictedPrice, every actualPrice > 0 and every
daysDiff ≥ 0, the scoring function returns exactly
`clamp(max(0, 100 - percentageError) * (1 + timeWeight + shortTermBonus)
+ accuracyBonus, 0, 100)` with `timeWeight = sqrt(daysDiff+1)/sqrt(366)`,
and the result always lies in `[0, 100]`. -/
theorem scoreFormula_eq_specScore_and_bounded (p a d : ℝ) (ha : 0 < a)
    (hd : 0 ≤ d) :
    scoreFormula p a d = specScore p a d ∧
      0 ≤ scoreFormula p a d ∧ scoreFormula p a d ≤ 100 := by
  refine ⟨?_, le_max_left _ _, max_le (by norm_num) (min_le_left _ _)⟩
  have h1 : (d + 1) ^ (0.5 : ℝ) = Real.sqrt (d + 1) := by
    rw [Real.sqrt_eq_rpow]; norm_num
  have h2 : ((365 : ℝ) + 1) ^ (0.5 : ℝ) = Real.sqrt 366 := by
    rw [Real.sqrt_eq_rpow]; norm_num
  unfold scoreFormula specScore clamp timeWeight percentageError
    shortTermBonus accuracyBonus
  rw [h1, h2]

/-- Witness for C1 at `p = 100`, `a = 100`, `d = 0`. -/
theorem scoreFormula_eq_specScore_and_bounded_witness :
    scoreFormula 100 100 0 = specScore 100 100 0 ∧
      0 ≤ scoreFormula 100 100 0 ∧ scoreFormula 100 100 0 ≤ 100 :=
  scoreFormula_eq_specScore_and_bounded 100 100 0 (by norm_num) le_rfl

/-! ## The price cache and resolver (src/server.js, `priceCache` and the
resolution half of `calculateScore`)

The source keys the cache by `predictionDate === today` choosing between the key `current` and
the formatted date string; distinct historical dates give distinct `DD-MM-YYYY`
strings, so the key space is `current` plus one key per historical date. -/

/-- Cache key: `current` for today, else the formatted date string. -/
inductive CacheKey
  | current
  | historical (date : ℤ)
deriving DecidableEq

/-- Source: `const cacheKey` is `current` when the prediction date is
today, else the formatted date string. -/
def keyFor (today date : ℤ) : CacheKey :=
  if date = today then CacheKey.current else CacheKey.historical date

/-- One entry of `priceCache`: `{ price, timestamp }`. -/
structure CacheEntry where
  price : ℝ
  timestamp : ℤ

/-- The process-wide `priceCache` map. -/
def Cache : Type := CacheKey → Option CacheEntry

/-- Source: `priceCache.set(cacheKey, { price, timestamp: now })`. -/
def Cache.insert (c : Cache) (k : CacheKey) (e : CacheEntry) : Cache :=
  fun k2 => if k2 = k then some e else c k2

/-- Source: `const CACHE_DURATION = 5 * 60 * 1000` (milliseconds). -/
def CACHE_DURATION : ℤ := 5 * 60 * 1000

/-- Outcome of one external CoinGecko fetch: a price, a rejected promise,
a non-ok HTTP status, or a response body missing the required fields. -/
inductive FetchOutcome
  | success (price : ℝ)
  | networkError
  | nonOkStatus
  | malformedBody

/-- Result of the resolution half of `calculateScore`: the resolved price
or the thrown error, the cache afterwards, and whether an external fetch
was issued. -/
structure ResolveOutcome where
  result : Except String ℝ
  cache : Cache
  fetched : Bool

/-- The fetch-and-validate branch of `calculateScore`: issue the network
call; on ok status and well-formed body take the price and write it to
the cache, otherwise throw (cache untouched). -/
def doFetch (fetch : CacheKey → FetchOutcome) (c : Cache) (k : CacheKey)
    (now : ℤ) : ResolveOutcome :=
  match fetch k with
  | FetchOutcome.success p =>
      ⟨Except.ok p, c.insert k ⟨p, now⟩, true⟩
  | FetchOutcome.networkError =>
      ⟨Except.error "fetch rejected", c, true⟩
  | FetchOutcome.nonOkStatus =>
      ⟨Except.error "Failed to fetch Bitcoin price from CoinGecko for score calculation", c, true⟩
  | FetchOutcome.malformedBody =>
      ⟨Except.error "Unexpected data format from CoinGecko", c, true⟩

/-- The price-resolution logic of `calculateScore`: source
`if (cachedPrice && (now - cachedPrice.timestamp) < CACHE_DURATION)` use
the cached price with no network call, else fetch. -/
def resolvePrice (fetch : CacheKey → FetchOutcome) (c : Cache)
    (k : CacheKey) (now : ℤ) : ResolveOutcome :=
  match c k with
  | some e =>
      if now - e.timestamp < CACHE_DURATION then ⟨Except.ok e.price, c, false⟩
      else doFetch fetch c k now
  | none => doFetch fetch c k now

/-- Helper: a fresh cache entry short-circuits the resolution with no
network call. -/
theorem resolvePrice_hit (fetch : CacheKey → FetchOutcome) (c : Cache)
    (k : CacheKey) (now : ℤ) (e : CacheEntry) (hc : c k = some e)
    (hfresh : now - e.timestamp < CACHE_DURATION) :
    resolvePrice fetch c k now = ⟨Except.ok e.price, c, false⟩ := by
  simp only [resolvePrice, hc]
  rw [if_pos hfresh]

/-- Helper: a stale cache entry falls through to the fetch branch. -/
theorem resolvePrice_stale (fetch : CacheKey → FetchOutcome) (c : Cache)
    (k : CacheKey) (now : ℤ) (e : CacheEntry) (hc : c k = some e)
    (hfresh : ¬ now - e.timestamp < CACHE_DURATION) :
    resolvePrice fetch c k now = doFetch fetch c k now := by
  simp only [resolvePrice, hc]
  rw [if_neg hfresh]

/-- Helper: a cache miss falls through to the fetch branch. -/
theorem resolvePrice_miss (fetch : CacheKey → FetchOutcome) (c : Cache)
    (k : CacheKey) (now : ℤ) (hc : c k = none) :
    resolvePrice fetch c k now = doFetch fetch c k now := by
  simp only [resolvePrice, hc]

/-- Helper: a successful fetch returns the price and writes the cache. -/
theorem doFetch_success (fetch : CacheKey → FetchOutcome) (c : Cache)
    (k : CacheKey) (now : ℤ) (p : ℝ)
    (hf : fetch k = FetchOutcome.success p) :
    doFetch fetch c k now = ⟨Except.ok p, c.insert k ⟨p, now⟩, true⟩ := by
  simp only [doFetch, hf]

/-- Helper: looking up the key just inserted. -/
theorem Cache.insert_self (c : Cache) (k : CacheKey) (e : CacheEntry) :
    (c.insert k e) k = some e := by
  simp [Cache.insert]

/-- Claim C6: two price resolutions for a key within the freshness window
issue at most one external fetch, and when the first one fetched, the
second returns the cached price directly; a resolution finding an expired
entry issues a new fetch and overwrites the cache entry for that key. -/
theorem priceCache_single_fetch_within_window_and_refetch_after_expiry
    (fetch : CacheKey → FetchOutcome) (k : CacheKey) (p : ℝ) (c : Cache)
    (t1 t2 : ℤ) (hf : fetch k = FetchOutcome.success p) (h12 : t1 ≤ t2)
    (hwin : t2 - t1 < CACHE_DURATION) :
    ((if (resolvePrice fetch c k t1).fetched then 1 else 0) +
        (if (resolvePrice fetch (resolvePrice fetch c k t1).cache k t2).fetched
          then 1 else 0) ≤ (1 : ℕ)) ∧
      ((resolvePrice fetch c k t1).fetched = true →
        resolvePrice fetch (resolvePrice fetch c k t1).cache k t2 =
          ⟨Except.ok p, (resolvePrice fetch c k t1).cache, false⟩) ∧
      (∀ (e : CacheEntry) (now : ℤ), c k = some e →
        CACHE_DURATION ≤ now - e.timestamp →
        resolvePrice fetch c k now =
          ⟨Except.ok p, c.insert k ⟨p, now⟩, true⟩) := by
  have hfresh2 : t2 - (⟨p, t1⟩ : CacheEntry).timestamp < CACHE_DURATION := by
    simpa using hwin
  have hfetch1 : ∀ hck : c k = none ∨ ∃ e, c k = some e ∧
      ¬ t1 - e.timestamp < CACHE_DURATION,
      resolvePrice fetch c k t1 =
        ⟨Except.ok p, c.insert k ⟨p, t1⟩, true⟩ := by
    rintro (hck | ⟨e, hck, hst⟩)
    · rw [resolvePrice_miss fetch c k t1 hck,
        doFetch_success fetch c k t1 p hf]
    · rw [resolvePrice_stale fetch c k t1 e hck hst,
        doFetch_success fetch c k t1 p hf]
  refine ⟨?_, ?_, ?_⟩
  · cases hck : c k with
    | none =>
        rw [hfetch1 (Or.inl hck)]
        rw [resolvePrice_hit fetch _ k t2 ⟨p, t1⟩
          (Cache.insert_self c k ⟨p, t1⟩) hfresh2]
        simp
    | some e =>
        by_cases hfr : t1 - e.timestamp < CACHE_DURATION
        · rw [resolvePrice_hit fetch c k t1 e hck hfr]
          simp only [Bool.false_eq_true, if_false, zero_add]
          split <;> norm_num
        · rw [hfetch1 (Or.inr ⟨e, hck, hfr⟩)]
          rw [resolvePrice_hit fetch _ k t2 ⟨p, t1⟩
            (Cache.insert_self c k ⟨p, t1⟩) hfresh2]
          simp
  · intro hfetched
    have hr1 : resolvePrice fetch c k t1 =
        ⟨Except.ok p, c.insert k ⟨p, t1⟩, true⟩ := by
      cases hck : c k with
      | none => exact hfetch1 (Or.inl hck)
      | some e =>
          by_cases hfr : t1 - e.timestamp < CACHE_DURATION
          · rw [resolvePrice_hit fetch c k t1 e hck hfr] at hfetched
            simp at hfetched
          · exact hfetch1 (Or.inr ⟨e, hck, hfr⟩)
    rw [hr1]
    exact resolvePrice_hit fetch _ k t2 ⟨p, t1⟩
      (Cache.insert_self c k ⟨p, t1⟩) hfresh2
  · intro e now hc hold
    rw [resolvePrice_stale fetch c k now e hc (not_lt.mpr hold),
      doFetch_success fetch c k now p hf]

/-- Witness for C6 at a concrete oracle, key, cache and pair of times. -/
theorem priceCache_single_fetch_witness :
    ((if (resolvePrice (fun _ => FetchOutcome.success 5) (fun _ => none)
          CacheKey.current 0).fetched then 1 else 0) +
        (if (resolvePrice (fun _ => FetchOutcome.success 5)
            (resolvePrice (fun _ => FetchOutcome.success 5) (fun _ => none)
              CacheKey.current 0).cache CacheKey.current 1).fetched
          then 1 else 0) ≤ (1 : ℕ)) ∧
      ((resolvePrice (fun _ => FetchOutcome.success 5) (fun _ => none)
          CacheKey.current 0).fetched = true →
        resolvePrice (fun _ => FetchOutcome.success 5)
            (resolvePrice (fun _ => FetchOutcome.success 5) (fun _ => none)
              CacheKey.current 0).cache CacheKey.current 1 =
          ⟨Except.ok 5, (resolvePrice (fun _ => FetchOutcome.success 5)
            (fun _ => none) CacheKey.current 0).cache, false⟩) ∧
      (∀ (e : CacheEntry) (now : ℤ), (fun _ => none : Cache) CacheKey.current = some e →
        CACHE_DURATION ≤ now - e.timestamp →
        resolvePrice (fun _ => FetchOutcome.success 5) (fun _ => none)
            CacheKey.current now =
          ⟨Except.ok 5, Cache.insert (fun _ => none) CacheKey.current ⟨5, now⟩, true⟩) :=
  priceCache_single_fetch_within_window_and_refetch_after_expiry
    (fun _ => FetchOutcome.success 5) CacheKey.current 5 (fun _ => none) 0 1
    rfl (by norm_num) (by norm_num [CACHE_DURATION])

/-! ## The prediction store (table `predictions`) and the operations on it -/

/-- Lifecycle status, stored as TEXT; creation and settlement write only
these two values. -/
inductive Status
  | pending
  | completed
deriving DecidableEq

/-- One row of the `predictions` table: `id, name, price, date, status,
score, current_price, source` (the `created_at` default column carries no
behaviour).  `price` is the predicted price, `date` the target date,
`current_price` the market price at submission. -/
structure Prediction where
  id : ℕ
  name : String
  price : ℝ
  date : ℤ
  status : Status
  score : Option ℝ
  current_price : Option ℝ
  source : Option String

/-- Source: `Math.max(0, (todayDateObj - predictionDateObj) / (1000 * 60 *
60 * 24))`, the non-negative day difference. -/
def daysDiff (today date : ℤ) : ℝ :=
  max 0 ((today - date : ℤ) : ℝ)

/-- The whole of `calculateScore(predictedPrice, predictionDate)`: resolve
the actual price through the cache/fetch logic and apply the scoring
formula; the surrounding `try/catch` turns any thrown error into `null`
(here `none`).  Returns the score and the cache afterwards. -/
def calculateScore (fetch : CacheKey → FetchOutcome) (c : Cache) (now : ℤ)
    (predictedPrice : ℝ) (predictionDate today : ℤ) : Option ℝ × Cache :=
  match resolvePrice fetch c (keyFor today predictionDate) now with
  | ⟨Except.ok actualPrice, c2, _⟩ =>
      (some (scoreFormula predictedPrice actualPrice
        (daysDiff today predictionDate)), c2)
  | ⟨Except.error _, c2, _⟩ => (none, c2)

/-- The per-row body of the `updateDuePredictions` loop: compute the
score; if it is not `null`, run
`UPDATE predictions SET status = completed, score = ? WHERE id = ?`,
otherwise skip the update. -/
def settlePrediction (fetch : CacheKey → FetchOutcome) (now today : ℤ)
    (c : Cache) (r : Prediction) : Prediction × Cache :=
  match calculateScore fetch c now r.price r.date today with
  | (some v, c2) => ({r with status := Status.completed, score := some v}, c2)
  | (none, c2) => (r, c2)

/-- `updateDuePredictions`: `SELECT * FROM predictions WHERE date <= ? AND
status = pending`, then settle each selected row in order; rows not
selected are untouched.  The shared cache threads through the loop. -/
def updateDuePredictions (fetch : CacheKey → FetchOutcome) (now today : ℤ) :
    List Prediction → Cache → List Prediction × Cache
  | [], c => ([], c)
  | r :: rs, c =>
      if r.date ≤ today ∧ r.status = Status.pending then
        let rc := settlePrediction fetch now today c r
        let rest := updateDuePredictions fetch now today rs rc.2
        (rc.1 :: rest.1, rest.2)
      else
        let rest := updateDuePredictions fetch now today rs c
        (r :: rest.1, rest.2)

/-- Fields of a `POST /api/predictions` body; `none` models an absent
field. -/
structure SubmitRequest where
  name : Option String
  price : Option ℝ
  date : Option ℤ
  source : Option String

/-- Response of the creation endpoint. -/
inductive CreateResult
  | badRequest
  | serverError
  | created (p : Prediction)

/-- `POST /api/predictions`: reject when `!name || !price || !date` (an
absent field, an empty string, or the falsy number `0`); fetch the
current price for `current_price` directly (not through the cache) and
fail the whole request if that fetch fails; compute
`status = date <= today ? completed : pending` and
`score = date <= today ? await calculateScore(price, date) : null`; then
insert the row. -/
def createPrediction (fetch : CacheKey → FetchOutcome) (c : Cache)
    (now today : ℤ) (nextId : ℕ) (store : List Prediction)
    (req : SubmitRequest) : List Prediction × CreateResult × Cache :=
  match req.name, req.price, req.date with
  | some nm, some pr, some dt =>
      if nm = "" ∨ pr = 0 then (store, CreateResult.badRequest, c)
      else
        match fetch CacheKey.current with
        | FetchOutcome.success cp =>
            if dt ≤ today then
              let sc := calculateScore fetch c now pr dt today
              let row : Prediction :=
                ⟨nextId, nm, pr, dt, Status.completed, sc.1, some cp, req.source⟩
              (store ++ [row], CreateResult.created row, sc.2)
            else
              let row : Prediction :=
                ⟨nextId, nm, pr, dt, Status.pending, none, some cp, req.source⟩
              (store ++ [row], CreateResult.created row, c)
        | _ => (store, CreateResult.serverError, c)
  | _, _, _ => (store, CreateResult.badRequest, c)

/-- Helper: the three possible shapes of one fetch attempt. -/
theorem doFetch_cases (fetch : CacheKey → FetchOutcome) (c : Cache)
    (k : CacheKey) (now : ℤ) :
    (∃ p, doFetch fetch c k now = ⟨Except.ok p, c.insert k ⟨p, now⟩, true⟩ ∧
      fetch k = FetchOutcome.success p) ∨
    (∃ msg, doFetch fetch c k now = ⟨Except.error msg, c, true⟩ ∧
      ∀ p, fetch k ≠ FetchOutcome.success p) := by
  unfold doFetch
  cases hf : fetch k with
  | success p => exact Or.inl ⟨p, rfl, rfl⟩
  | networkError => exact Or.inr ⟨_, rfl, fun p h => by cases h⟩
  | nonOkStatus => exact Or.inr ⟨_, rfl, fun p h => by cases h⟩
  | malformedBody => exact Or.inr ⟨_, rfl, fun p h => by cases h⟩

/-- Helper: the three possible shapes of one price resolution: a fetch
that succeeds and writes the cache, a cache hit, or a failure that leaves
the cache untouched. -/
theorem resolvePrice_cases (fetch : CacheKey → FetchOutcome) (c : Cache)
    (k : CacheKey) (now : ℤ) :
    (∃ p, resolvePrice fetch c k now = ⟨Except.ok p, c.insert k ⟨p, now⟩, true⟩ ∧
      fetch k = FetchOutcome.success p) ∨
    (∃ e, c k = some e ∧ now - e.timestamp < CACHE_DURATION ∧
      resolvePrice fetch c k now = ⟨Except.ok e.price, c, false⟩) ∨
    (∃ msg, resolvePrice fetch c k now = ⟨Except.error msg, c, true⟩ ∧
      (∀ p, fetch k ≠ FetchOutcome.success p) ∧
      (∀ e, c k = some e → ¬ now - e.timestamp < CACHE_DURATION)) := by
  cases hck : c k with
  | none =>
      rw [resolvePrice_miss fetch c k now hck]
      rcases doFetch_cases fetch c k now with ⟨p, hdf, hfp⟩ | ⟨msg, hdf, hfp⟩
      · exact Or.inl ⟨p, hdf, hfp⟩
      · exact Or.inr (Or.inr ⟨msg, hdf, hfp, fun e h => by cases h⟩)
  | some e =>
      by_cases hfr : now - e.timestamp < CACHE_DURATION
      · rw [resolvePrice_hit fetch c k now e hck hfr]
        exact Or.inr (Or.inl ⟨e, rfl, hfr, rfl⟩)
      · rw [resolvePrice_stale fetch c k now e hck hfr]
        rcases doFetch_cases fetch c k now with ⟨p, hdf, hfp⟩ | ⟨msg, hdf, hfp⟩
        · exact Or.inl ⟨p, hdf, hfp⟩
        · refine Or.inr (Or.inr ⟨msg, hdf, hfp, ?_⟩)
          intro e2 he2
          cases he2
          exact hfr

/-- Resolution finds an answer without throwing precisely when a fresh
cache entry exists or the external fetch returns a price. -/
def Resolvable (fetch : CacheKey → FetchOutcome) (c : Cache) (k : CacheKey)
    (now : ℤ) : Prop :=
  (∃ e, c k = some e ∧ now - e.timestamp < CACHE_DURATION) ∨
    ∃ p, fetch k = FetchOutcome.success p

/-- Helper: a resolvable key resolves to a price. -/
theorem resolvePrice_ok_of_resolvable (fetch : CacheKey → FetchOutcome)
    (c : Cache) (k : CacheKey) (now : ℤ) (h : Resolvable fetch c k now) :
    ∃ p, (resolvePrice fetch c k now).result = Except.ok p := by
  rcases resolvePrice_cases fetch c k now with
    ⟨p, hr, _⟩ | ⟨e, _, _, hr⟩ | ⟨msg, hr, hns, hnf⟩
  · exact ⟨p, by rw [hr]⟩
  · exact ⟨e.price, by rw [hr]⟩
  · exfalso
    rcases h with ⟨e, he, hfr⟩ | ⟨p, hp⟩
    · exact hnf e he hfr
    · exact hns p hp

/-- Helper: an unresolvable key throws and leaves the cache untouched. -/
theorem resolvePrice_error_of_not_resolvable (fetch : CacheKey → FetchOutcome)
    (c : Cache) (k : CacheKey) (now : ℤ) (h : ¬ Resolvable fetch c k now) :
    ∃ msg, resolvePrice fetch c k now = ⟨Except.error msg, c, true⟩ := by
  rcases resolvePrice_cases fetch c k now with
    ⟨p, hr, hfp⟩ | ⟨e, he, hfr, hr⟩ | ⟨msg, hr, _, _⟩
  · exact absurd (Or.inr ⟨p, hfp⟩) h
  · exact absurd (Or.inl ⟨e, he, hfr⟩) h
  · exact ⟨msg, hr⟩

/-- Helper: unfolding `calculateScore` when resolution returns a price. -/
theorem calculateScore_of_ok (fetch : CacheKey → FetchOutcome) (c : Cache)
    (now : ℤ) (pr : ℝ) (d today : ℤ) (p : ℝ)
    (hres : (resolvePrice fetch c (keyFor today d) now).result = Except.ok p) :
    calculateScore fetch c now pr d today =
      (some (scoreFormula pr p (daysDiff today d)),
        (resolvePrice fetch c (keyFor today d) now).cache) := by
  unfold calculateScore
  rcases hrp : resolvePrice fetch c (keyFor today d) now with ⟨res, c2, fb⟩
  rw [hrp] at hres
  obtain rfl : res = Except.ok p := hres
  rfl

/-- Helper: unfolding `calculateScore` when resolution throws. -/
theorem calculateScore_of_error (fetch : CacheKey → FetchOutcome) (c : Cache)
    (now : ℤ) (pr : ℝ) (d today : ℤ) (msg : String)
    (hres : (resolvePrice fetch c (keyFor today d) now).result =
      Except.error msg) :
    calculateScore fetch c now pr d today =
      (none, (resolvePrice fetch c (keyFor today d) now).cache) := by
  unfold calculateScore
  rcases hrp : resolvePrice fetch c (keyFor today d) now with ⟨res, c2, fb⟩
  rw [hrp] at hres
  obtain rfl : res = Except.error msg := hres
  rfl

/-- Helper: an unresolvable date gives a `null` score and an unchanged
cache. -/
theorem calculateScore_of_not_resolvable (fetch : CacheKey → FetchOutcome)
    (c : Cache) (now : ℤ) (pr : ℝ) (d today : ℤ)
    (h : ¬ Resolvable fetch c (keyFor today d) now) :
    calculateScore fetch c now pr d today = (none, c) := by
  obtain ⟨msg, hr⟩ :=
    resolvePrice_error_of_not_resolvable fetch c (keyFor today d) now h
  have := calculateScore_of_error fetch c now pr d today msg (by rw [hr])
  rw [this, hr]

/-- Helper: unfolding the settlement of one row on success. -/
theorem settlePrediction_of_ok (fetch : CacheKey → FetchOutcome)
    (now today : ℤ) (c : Cache) (r : Prediction) (p : ℝ)
    (hres : (resolvePrice fetch c (keyFor today r.date) now).result =
      Except.ok p) :
    settlePrediction fetch now today c r =
      ({ r with
          status := Status.completed
          score := some (scoreFormula r.price p (daysDiff today r.date)) },
        (resolvePrice fetch c (keyFor today r.date) now).cache) := by
  unfold settlePrediction
  rw [calculateScore_of_ok fetch c now r.price r.date today p hres]

/-- Helper: settlement of one row is skipped entirely on failure. -/
theorem settlePrediction_of_not_resolvable (fetch : CacheKey → FetchOutcome)
    (now today : ℤ) (c : Cache) (r : Prediction)
    (h : ¬ Resolvable fetch c (keyFor today r.date) now) :
    settlePrediction fetch now today c r = (r, c) := by
  unfold settlePrediction
  rw [calculateScore_of_not_resolvable fetch c now r.price r.date today h]

/-- Helper: sweep equation on the empty store. -/
theorem updateDue_nil (fetch : CacheKey → FetchOutcome) (now today : ℤ)
    (c : Cache) : updateDuePredictions fetch now today [] c = ([], c) := rfl

/-- Helper: sweep equation on a selected (due and pending) head row. -/
theorem updateDue_cons_due (fetch : CacheKey → FetchOutcome) (now today : ℤ)
    (r : Prediction) (rs : List Prediction) (c : Cache)
    (h : r.date ≤ today ∧ r.status = Status.pending) :
    updateDuePredictions fetch now today (r :: rs) c =
      ((settlePrediction fetch now today c r).1 ::
          (updateDuePredictions fetch now today rs
            (settlePrediction fetch now today c r).2).1,
        (updateDuePredictions fetch now today rs
          (settlePrediction fetch now today c r).2).2) := by
  simp only [updateDuePredictions]
  rw [if_pos h]

/-- Helper: sweep equation on an unselected head row. -/
theorem updateDue_cons_skip (fetch : CacheKey → FetchOutcome) (now today : ℤ)
    (r : Prediction) (rs : List Prediction) (c : Cache)
    (h : ¬ (r.date ≤ today ∧ r.status = Status.pending)) :
    updateDuePredictions fetch now today (r :: rs) c =
      (r :: (updateDuePredictions fetch now today rs c).1,
        (updateDuePredictions fetch now today rs c).2) := by
  simp only [updateDuePredictions]
  rw [if_neg h]

/-- Response of the deletion endpoint. -/
inductive DeleteResult
  | deleted
  | notFound
deriving DecidableEq

/-- `DELETE /api/predictions/:id`: run `DELETE FROM predictions WHERE id =
?` and answer the fixed success message `Prediction deleted`; the handler never
inspects how many rows were removed, so `notFound` is never produced. -/
def deleteById (store : List Prediction) (i : ℕ) :
    List Prediction × DeleteResult :=
  (store.filter (fun r => r.id != i), DeleteResult.deleted)

/-- Helper: an error result pins down the whole resolution outcome; in
particular the cache is untouched. -/
theorem resolvePrice_error_eq (fetch : CacheKey → FetchOutcome) (c : Cache)
    (k : CacheKey) (now : ℤ) (msg : String)
    (h : (resolvePrice fetch c k now).result = Except.error msg) :
    resolvePrice fetch c k now = ⟨Except.error msg, c, true⟩ := by
  rcases resolvePrice_cases fetch c k now with
    ⟨p, hr, _⟩ | ⟨e, _, _, hr⟩ | ⟨m2, hr, _, _⟩
  · rw [hr] at h; cases h
  · rw [hr] at h; cases h
  · rw [hr] at h
    injection h with h2
    subst h2
    exact hr

/-- Helper: settlement of one row on a thrown resolution error skips the
update and leaves the cache untouched. -/
theorem settlePrediction_of_error (fetch : CacheKey → FetchOutcome)
    (now today : ℤ) (c : Cache) (r : Prediction) (msg : String)
    (h : (resolvePrice fetch c (keyFor today r.date) now).result =
      Except.error msg) :
    settlePrediction fetch now today c r = (r, c) := by
  unfold settlePrediction
  rw [calculateScore_of_error fetch c now r.price r.date today msg h,
    resolvePrice_error_eq fetch c (keyFor today r.date) now msg h]

/-- Claim C5 (code bug): the source has no guard on `actualPrice`; the
scoring computation divides by it unconditionally and returns a numeric
score instead of signalling an error.  Evaluated at
`predictedPrice = actualPrice = 0`, `daysDiff = 0`, the embedded formula
(real-number semantics, where `x / 0 = 0`) returns the score 100; the
JavaScript original returns `NaN` (from `0/0`) — in both readings a
value is returned and no error is raised. -/
theorem scoreFormula_no_fail_fast_at_zero_actualPrice :
    scoreFormula 0 0 0 = 100 := by
  have htw : (0:ℝ) ≤ timeWeight 0 := by
    unfold timeWeight
    positivity
  have hpe : percentageError 0 0 = 0 := by
    unfold percentageError
    norm_num
  have hst : shortTermBonus 0 = 0.7 := by
    unfold shortTermBonus
    rw [if_pos (by norm_num : (0:ℝ) ≤ 7)]
    norm_num
  have hab : accuracyBonus 0 0 = 20 := by
    unfold accuracyBonus
    rw [if_pos (⟨by norm_num, by norm_num⟩ : (0:ℝ) ≤ 7 ∧ (0:ℝ) < 5)]
  unfold scoreFormula
  rw [hpe, hst, hab]
  have h100 : (100:ℝ) ≤ max 0 (100 - 0) * (1 + timeWeight 0 + 0.7) + 20 := by
    have hm : max (0:ℝ) (100 - 0) = 100 := by norm_num
    rw [hm]
    nlinarith [htw]
  rw [min_eq_left h100, max_eq_right (by norm_num : (0:ℝ) ≤ 100)]

/-- Claim C3 (amended): when the settlement sweep successfully resolves a
price of a due pending record, it updates that record in a single update
setting `status` to completed and `score` to the computed score; every
other column — in particular `current_price` — is left unchanged.  The
resolved price itself is not persisted: the schema has no `actualPrice`
column. -/
theorem sweep_settles_with_status_and_score_only
    (fetch : CacheKey → FetchOutcome) (c : Cache) (now today : ℤ)
    (r : Prediction) (p : ℝ) (hdue : r.date ≤ today)
    (hpend : r.status = Status.pending)
    (hres : (resolvePrice fetch c (keyFor today r.date) now).result =
      Except.ok p) :
    (updateDuePredictions fetch now today [r] c).1 =
      [{ r with
          status := Status.completed
          score := some (scoreFormula r.price p (daysDiff today r.date)) }] := by
  rw [updateDue_cons_due fetch now today r [] c ⟨hdue, hpend⟩,
    settlePrediction_of_ok fetch now today c r p hres]
  rfl

/-- Witness for C3 at a one-row store and an oracle resolving 100. -/
theorem sweep_settles_with_status_and_score_only_witness :
    (updateDuePredictions (fun _ => FetchOutcome.success 100) 0 20
        [⟨1, "alice", 300, 10, Status.pending, none, some 50, none⟩]
        (fun _ => none)).1 =
      [{ (⟨1, "alice", 300, 10, Status.pending, none, some 50, none⟩ : Prediction) with
          status := Status.completed
          score := some (scoreFormula 300 100 (daysDiff 20 10)) }] :=
  sweep_settles_with_status_and_score_only (fun _ => FetchOutcome.success 100)
    (fun _ => none) 0 20
    ⟨1, "alice", 300, 10, Status.pending, none, some 50, none⟩ 100
    (by norm_num) rfl rfl

/-- Counterexample to C3 as stated: the sweep resolves the price 100 for
a due record, but the settled row keeps its creation-time
`current_price` of 50 and carries the score 0 — the resolved price 100
is stored in no column of the row. -/
theorem sweep_does_not_persist_actualPrice_counterexample :
    (updateDuePredictions (fun _ => FetchOutcome.success 100) 0 20
        [⟨1, "alice", 300, 10, Status.pending, none, some 50, none⟩]
        (fun _ => none)).1 =
      [⟨1, "alice", 300, 10, Status.completed, some 0, some 50, none⟩] ∧
      some (50:ℝ) ≠ some (100:ℝ) ∧ some (0:ℝ) ≠ some (100:ℝ) ∧
      (300:ℝ) ≠ 100 := by
  refine ⟨?_, by simp, by simp, by norm_num⟩
  rw [updateDue_cons_due (fun _ => FetchOutcome.success 100) 0 20
      ⟨1, "alice", 300, 10, Status.pending, none, some 50, none⟩ []
      (fun _ => none) ⟨by norm_num, rfl⟩,
    settlePrediction_of_ok (fun _ => FetchOutcome.success 100) 0 20
      (fun _ => none) ⟨1, "alice", 300, 10, Status.pending, none, some 50, none⟩
      100 rfl]
  have hdd : daysDiff 20 10 = 10 := by
    unfold daysDiff
    norm_num
  have hpe : percentageError 300 100 = 200 := by
    unfold percentageError
    norm_num
  have hsc : scoreFormula 300 100 (daysDiff 20 10) = 0 := by
    rw [hdd]
    unfold scoreFormula accuracyBonus
    rw [hpe, if_neg (by norm_num : ¬ ((10:ℝ) ≤ 7 ∧ (200:ℝ) < 5))]
    rw [max_eq_left (by norm_num : (100:ℝ) - 200 ≤ 0), zero_mul, add_zero,
      min_eq_right (by norm_num : (0:ℝ) ≤ 100), max_self]
  rw [hsc]
  rfl

/-- Claim C7: during a settlement sweep, a price-resolution failure for
one record leaves that record pending and the remaining due records are
processed exactly as they otherwise would be (the failed settle leaves
even the cache untouched); and along any sweep each record either stays
exactly as it was or moves from pending to completed — the only state
transition a record can take. -/
theorem sweep_failure_isolated_and_pending_to_completed_only
    (fetch : CacheKey → FetchOutcome) (now today : ℤ) :
    (∀ (c : Cache) (r : Prediction) (rs : List Prediction) (msg : String),
      r.date ≤ today → r.status = Status.pending →
      (resolvePrice fetch c (keyFor today r.date) now).result =
        Except.error msg →
      updateDuePredictions fetch now today (r :: rs) c =
        (r :: (updateDuePredictions fetch now today rs c).1,
          (updateDuePredictions fetch now today rs c).2)) ∧
    (∀ (s : List Prediction) (c : Cache),
      List.Forall₂ (fun a b => b = a ∨ (a.status = Status.pending ∧
          ∃ v, b = { a with status := Status.completed, score := some v }))
        s (updateDuePredictions fetch now today s c).1) := by
  constructor
  · intro c r rs msg hdue hpend herr
    rw [updateDue_cons_due fetch now today r rs c ⟨hdue, hpend⟩,
      settlePrediction_of_error fetch now today c r msg herr]
  · intro s
    induction s with
    | nil =>
        intro c
        exact List.Forall₂.nil
    | cons r rs ih =>
        intro c
        by_cases hdue : r.date ≤ today ∧ r.status = Status.pending
        · rw [updateDue_cons_due fetch now today r rs c hdue]
          refine List.Forall₂.cons ?_ (ih _)
          by_cases hres : Resolvable fetch c (keyFor today r.date) now
          · obtain ⟨p, hok⟩ :=
              resolvePrice_ok_of_resolvable fetch c (keyFor today r.date) now hres
            rw [settlePrediction_of_ok fetch now today c r p hok]
            exact Or.inr ⟨hdue.2, scoreFormula r.price p (daysDiff today r.date), rfl⟩
          · rw [settlePrediction_of_not_resolvable fetch now today c r hres]
            exact Or.inl rfl
        · rw [updateDue_cons_skip fetch now today r rs c hdue]
          exact List.Forall₂.cons (Or.inl rfl) (ih c)

/-- Witness for C7, first part: a sweep whose only record hits a network
error leaves the store exactly as the sweep of the remaining (empty)
records would. -/
theorem sweep_failure_isolated_witness :
    updateDuePredictions (fun _ => FetchOutcome.networkError) 0 0
        [⟨1, "alice", 300, 0, Status.pending, none, some 50, none⟩]
        (fun _ => none) =
      (⟨1, "alice", 300, 0, Status.pending, none, some 50, none⟩ ::
          (updateDuePredictions (fun _ => FetchOutcome.networkError) 0 0 []
            (fun _ => none)).1,
        (updateDuePredictions (fun _ => FetchOutcome.networkError) 0 0 []
          (fun _ => none)).2) :=
  (sweep_failure_isolated_and_pending_to_completed_only
      (fun _ => FetchOutcome.networkError) 0 0).1
    (fun _ => none) ⟨1, "alice", 300, 0, Status.pending, none, some 50, none⟩
    [] "fetch rejected" le_rfl rfl rfl

/-- Cache evolution along a sweep running at the fixed instant `now`:
every key is either untouched or holds an entry fetched successfully at
`now`. -/
def CacheEvo (fetch : CacheKey → FetchOutcome) (now : ℤ) (c c2 : Cache) :
    Prop :=
  ∀ k, c2 k = c k ∨
    ∃ p, fetch k = FetchOutcome.success p ∧ c2 k = some ⟨p, now⟩

/-- Helper: cache evolution is reflexive. -/
theorem cacheEvo_refl (fetch : CacheKey → FetchOutcome) (now : ℤ)
    (c : Cache) : CacheEvo fetch now c c :=
  fun _ => Or.inl rfl

/-- Helper: cache evolution composes. -/
theorem cacheEvo_trans (fetch : CacheKey → FetchOutcome) (now : ℤ)
    {c1 c2 c3 : Cache} (h1 : CacheEvo fetch now c1 c2)
    (h2 : CacheEvo fetch now c2 c3) : CacheEvo fetch now c1 c3 := by
  intro k
  rcases h2 k with h | ⟨p, hp, hk⟩
  · rw [h]
    exact h1 k
  · exact Or.inr ⟨p, hp, hk⟩

/-- Helper: one resolution only evolves the cache. -/
theorem resolvePrice_cacheEvo (fetch : CacheKey → FetchOutcome) (c : Cache)
    (k : CacheKey) (now : ℤ) :
    CacheEvo fetch now c (resolvePrice fetch c k now).cache := by
  rcases resolvePrice_cases fetch c k now with
    ⟨p, hr, hfp⟩ | ⟨e, _, _, hr⟩ | ⟨msg, hr, _, _⟩
  · rw [hr]
    intro k2
    by_cases hk : k2 = k
    · subst hk
      exact Or.inr ⟨p, hfp, by simp [Cache.insert]⟩
    · exact Or.inl (by simp [Cache.insert, hk])
  · rw [hr]
    exact cacheEvo_refl fetch now c
  · rw [hr]
    exact cacheEvo_refl fetch now c

/-- Helper: the score computation only evolves the cache. -/
theorem calculateScore_cacheEvo (fetch : CacheKey → FetchOutcome) (c : Cache)
    (now : ℤ) (pr : ℝ) (d today : ℤ) :
    CacheEvo fetch now c (calculateScore fetch c now pr d today).2 := by
  unfold calculateScore
  rcases hrp : resolvePrice fetch c (keyFor today d) now with ⟨res, c2, fb⟩
  have h := resolvePrice_cacheEvo fetch c (keyFor today d) now
  rw [hrp] at h
  cases res <;> exact h

/-- Helper: settling one row only evolves the cache. -/
theorem settlePrediction_cacheEvo (fetch : CacheKey → FetchOutcome)
    (now today : ℤ) (c : Cache) (r : Prediction) :
    CacheEvo fetch now c (settlePrediction fetch now today c r).2 := by
  unfold settlePrediction
  rcases hcs : calculateScore fetch c now r.price r.date today with ⟨sc, c2⟩
  have h := calculateScore_cacheEvo fetch c now r.price r.date today
  rw [hcs] at h
  cases sc <;> exact h

/-- Helper: a whole sweep only evolves the cache. -/
theorem updateDue_cacheEvo (fetch : CacheKey → FetchOutcome)
    (now today : ℤ) :
    ∀ (s : List Prediction) (c : Cache),
      CacheEvo fetch now c (updateDuePredictions fetch now today s c).2 := by
  intro s
  induction s with
  | nil =>
      intro c
      exact cacheEvo_refl fetch now c
  | cons r rs ih =>
      intro c
      by_cases hdue : r.date ≤ today ∧ r.status = Status.pending
      · rw [updateDue_cons_due fetch now today r rs c hdue]
        exact cacheEvo_trans fetch now
          (settlePrediction_cacheEvo fetch now today c r) (ih _)
      · rw [updateDue_cons_skip fetch now today r rs c hdue]
        exact ih c

/-- Helper: a key that cannot be resolved stays unresolvable under cache
evolution at the same instant. -/
theorem not_resolvable_mono (fetch : CacheKey → FetchOutcome) (now : ℤ)
    (k : CacheKey) {c c2 : Cache} (hevo : CacheEvo fetch now c c2)
    (h : ¬ Resolvable fetch c k now) : ¬ Resolvable fetch c2 k now := by
  intro h2
  apply h
  rcases h2 with ⟨e, he, hfr⟩ | hsucc
  · rcases hevo k with hk | ⟨p, hp, _⟩
    · rw [hk] at he
      exact Or.inl ⟨e, he, hfr⟩
    · exact Or.inr ⟨p, hp⟩
  · exact Or.inr hsucc

/-- Helper: a sweep over a store whose records are all unselected or
unresolvable is the identity, on the store and on the cache. -/
theorem updateDue_of_inert (fetch : CacheKey → FetchOutcome)
    (now today : ℤ) :
    ∀ (s : List Prediction) (c : Cache),
      (∀ r ∈ s, ¬ (r.date ≤ today ∧ r.status = Status.pending) ∨
        ¬ Resolvable fetch c (keyFor today r.date) now) →
      updateDuePredictions fetch now today s c = (s, c) := by
  intro s
  induction s with
  | nil =>
      intro c _
      rfl
  | cons r rs ih =>
      intro c h
      have htail : ∀ r2 ∈ rs, ¬ (r2.date ≤ today ∧ r2.status = Status.pending) ∨
          ¬ Resolvable fetch c (keyFor today r2.date) now :=
        fun r2 hr2 => h r2 (List.mem_cons_of_mem r hr2)
      rcases h r (List.mem_cons_self r rs) with hnd | hnr
      · rw [updateDue_cons_skip fetch now today r rs c hnd, ih c htail]
      · by_cases hdue : r.date ≤ today ∧ r.status = Status.pending
        · rw [updateDue_cons_due fetch now today r rs c hdue,
            settlePrediction_of_not_resolvable fetch now today c r hnr]
          dsimp only
          rw [ih c htail]
        · rw [updateDue_cons_skip fetch now today r rs c hdue, ih c htail]

/-- Helper: after one sweep, every record of the resulting store is
unselected or unresolvable with respect to the resulting cache. -/
theorem updateDue_post_inert (fetch : CacheKey → FetchOutcome)
    (now today : ℤ) :
    ∀ (s : List Prediction) (c : Cache) (r2 : Prediction),
      r2 ∈ (updateDuePredictions fetch now today s c).1 →
      ¬ (r2.date ≤ today ∧ r2.status = Status.pending) ∨
        ¬ Resolvable fetch (updateDuePredictions fetch now today s c).2
          (keyFor today r2.date) now := by
  intro s
  induction s with
  | nil =>
      intro c r2 h
      exact absurd h (List.not_mem_nil r2)
  | cons r rs ih =>
      intro c r2 h
      by_cases hdue : r.date ≤ today ∧ r.status = Status.pending
      · by_cases hres : Resolvable fetch c (keyFor today r.date) now
        · obtain ⟨p, hok⟩ :=
            resolvePrice_ok_of_resolvable fetch c (keyFor today r.date) now hres
          rw [updateDue_cons_due fetch now today r rs c hdue,
            settlePrediction_of_ok fetch now today c r p hok] at h ⊢
          rcases List.mem_cons.mp h with heq | hmem
          · subst heq
            exact Or.inl (by intro h2; exact Status.noConfusion h2.2)
          · exact ih _ r2 hmem
        · rw [updateDue_cons_due fetch now today r rs c hdue,
            settlePrediction_of_not_resolvable fetch now today c r hres] at h ⊢
          rcases List.mem_cons.mp h with heq | hmem
          · subst heq
            exact Or.inr (not_resolvable_mono fetch now (keyFor today r2.date)
              (updateDue_cacheEvo fetch now today rs c) hres)
          · exact ih c r2 hmem
      · rw [updateDue_cons_skip fetch now today r rs c hdue] at h ⊢
        rcases List.mem_cons.mp h with heq | hmem
        · subst heq
          exact Or.inl hdue
        · exact ih c r2 hmem

/-- Claim C4: the settlement sweep is idempotent: running it twice in
immediate succession (same instant, same oracle) gives, the second time,
a no-op on both the store and the cache, because the sweep selects only
records with `status = pending` and `date <= today` and a record that
failed once fails again; and a sweep over an already-completed record is
a no-op. -/
theorem sweep_idempotent_and_completed_noop (fetch : CacheKey → FetchOutcome)
    (now today : ℤ) (s : List Prediction) (c : Cache) :
    updateDuePredictions fetch now today
        (updateDuePredictions fetch now today s c).1
        (updateDuePredictions fetch now today s c).2 =
      updateDuePredictions fetch now today s c ∧
    ∀ (r : Prediction) (c2 : Cache), r.status = Status.completed →
      updateDuePredictions fetch now today [r] c2 = ([r], c2) := by
  constructor
  · rw [updateDue_of_inert fetch now today
      (updateDuePredictions fetch now today s c).1
      (updateDuePredictions fetch now today s c).2
      (fun r2 hr2 => updateDue_post_inert fetch now today s c r2 hr2)]
  · intro r c2 hcomp
    rw [updateDue_cons_skip fetch now today r [] c2
      (by intro h2; rw [hcomp] at h2; exact Status.noConfusion h2.2)]
    rfl

/-- Witness for C4, second part: a one-record completed store passes
through a sweep unchanged. -/
theorem sweep_idempotent_witness :
    updateDuePredictions (fun _ => FetchOutcome.networkError) 0 0
        [⟨1, "alice", 300, 0, Status.completed, some 10, some 50, none⟩]
        (fun _ => none) =
      ([⟨1, "alice", 300, 0, Status.completed, some 10, some 50, none⟩],
        (fun _ => none)) :=
  (sweep_idempotent_and_completed_noop (fun _ => FetchOutcome.networkError)
      0 0 [] (fun _ => none)).2
    ⟨1, "alice", 300, 0, Status.completed, some 10, some 50, none⟩
    (fun _ => none) rfl

/-- Claim C2 (code bug): a creation whose target date is already due but
whose synchronous score resolution fails (here: the historical-price
fetch hits a network error after the current-price fetch succeeded)
inserts a record with `status = completed` and `score = null` — exactly
the mixed state the invariant forbids.  (The schema moreover has no
`actualPrice` column, so no completed record ever carries one.) -/
theorem creation_inserts_completed_with_null_score :
    createPrediction
        (fun k => match k with
          | CacheKey.current => FetchOutcome.success 50
          | CacheKey.historical _ => FetchOutcome.networkError)
        (fun _ => none) 0 20 1 [] ⟨some "alice", some 100, some 10, none⟩ =
      ([⟨1, "alice", 100, 10, Status.completed, none, some 50, none⟩],
        CreateResult.created
          ⟨1, "alice", 100, 10, Status.completed, none, some 50, none⟩,
        (fun _ => none)) := by
  unfold createPrediction
  dsimp only
  rw [if_neg (by push_neg; exact ⟨by decide, by norm_num⟩ :
    ¬ ("alice" = "" ∨ (100:ℝ) = 0))]
  rw [if_pos (by decide : (10:ℤ) ≤ 20)]
  rw [calculateScore_of_error
    (fun k => match k with
      | CacheKey.current => FetchOutcome.success 50
      | CacheKey.historical _ => FetchOutcome.networkError)
    (fun _ => none) 0 100 10 20 "fetch rejected" rfl]
  rfl

/-- Counterexample to C8 as stated: a submission with the negative
predicted price `-5` passes the `!price` check and is persisted; the
price of the created record is not positive. -/
theorem creation_accepts_negative_price_counterexample :
    createPrediction (fun _ => FetchOutcome.success 50) (fun _ => none)
        0 20 1 [] ⟨some "bob", some (-5), some 30, none⟩ =
      ([⟨1, "bob", -5, 30, Status.pending, none, some 50, none⟩],
        CreateResult.created
          ⟨1, "bob", -5, 30, Status.pending, none, some 50, none⟩,
        (fun _ => none)) ∧
      ¬ (0:ℝ) < -5 := by
  constructor
  · unfold createPrediction
    dsimp only
    rw [if_neg (by push_neg; exact ⟨by decide, by norm_num⟩ :
      ¬ ("bob" = "" ∨ (-5:ℝ) = 0))]
    rw [if_neg (by decide : ¬ (30:ℤ) ≤ 20)]
    rfl
  · norm_num

/-- Claim C8 (amended): a submission with a missing field — or with the
falsy values empty string or zero, which the `!name || !price || !date`
check also rejects — is refused with no state mutated; an accepted
submission appends exactly one record, whose predicted price is nonzero
but not necessarily positive (negative prices are truthy and pass). -/
theorem creation_validation_rejects_falsy_fields
    (fetch : CacheKey → FetchOutcome) (c : Cache) (now today : ℤ)
    (nextId : ℕ) (store : List Prediction) (req : SubmitRequest) :
    ((req.name = none ∨ req.name = some "" ∨ req.price = none ∨
        req.price = some 0 ∨ req.date = none) →
      createPrediction fetch c now today nextId store req =
        (store, CreateResult.badRequest, c)) ∧
    (∀ (row : Prediction) (store2 : List Prediction) (c2 : Cache),
      createPrediction fetch c now today nextId store req =
        (store2, CreateResult.created row, c2) →
      row.price ≠ 0 ∧ store2 = store ++ [row]) := by
  rcases req with ⟨nmo, pro, dto, src⟩
  constructor
  · intro h
    rcases nmo with _ | nm
    · rfl
    rcases pro with _ | pr
    · rfl
    rcases dto with _ | dt
    · rfl
    have hval : nm = "" ∨ pr = 0 := by
      rcases h with h | h | h | h | h
      · cases h
      · exact Or.inl (Option.some.inj h)
      · cases h
      · exact Or.inr (Option.some.inj h)
      · cases h
    unfold createPrediction
    dsimp only
    rw [if_pos hval]
  · intro row store2 c2 heq
    rcases nmo with _ | nm
    · cases heq
    rcases pro with _ | pr
    · unfold createPrediction at heq
      dsimp only at heq
      cases heq
    rcases dto with _ | dt
    · unfold createPrediction at heq
      dsimp only at heq
      cases heq
    unfold createPrediction at heq
    dsimp only at heq
    by_cases hval : nm = "" ∨ pr = 0
    · rw [if_pos hval] at heq
      injection heq with h1 h2
      injection h2 with h2 h3
      cases h2
    · rw [if_neg hval] at heq
      have hpr : pr ≠ 0 := fun h0 => hval (Or.inr h0)
      cases hfc : fetch CacheKey.current with
      | success cp =>
          rw [hfc] at heq
          dsimp only at heq
          by_cases hdt : dt ≤ today
          · rw [if_pos hdt] at heq
            injection heq with h1 h2
            injection h2 with h2 h3
            injection h2 with h2
            subst h2
            exact ⟨hpr, h1.symm⟩
          · rw [if_neg hdt] at heq
            injection heq with h1 h2
            injection h2 with h2 h3
            injection h2 with h2
            subst h2
            exact ⟨hpr, h1.symm⟩
      | networkError =>
          rw [hfc] at heq
          dsimp only at heq
          injection heq with h1 h2
          injection h2 with h2 h3
          cases h2
      | nonOkStatus =>
          rw [hfc] at heq
          dsimp only at heq
          injection heq with h1 h2
          injection h2 with h2 h3
          cases h2
      | malformedBody =>
          rw [hfc] at heq
          dsimp only at heq
          injection heq with h1 h2
          injection h2 with h2 h3
          cases h2

/-- Witness for C8 at a concrete rejected submission. -/
theorem creation_validation_rejects_falsy_fields_witness :
    createPrediction (fun _ => FetchOutcome.success 50) (fun _ => none)
        0 20 1 [] ⟨some "bob", some 0, some 30, none⟩ =
      ([], CreateResult.badRequest, (fun _ => none)) :=
  (creation_validation_rejects_falsy_fields (fun _ => FetchOutcome.success 50)
      (fun _ => none) 0 20 1 [] ⟨some "bob", some 0, some 30, none⟩).1
    (Or.inr (Or.inr (Or.inr (Or.inl rfl))))

/-- Counterexample to C9 as stated: deleting an id absent from the store
answers the very success message a real deletion answers; `NotFound` is
never reported. -/
theorem deleteById_missing_id_success_counterexample :
    deleteById [] 1 = ([], DeleteResult.deleted) ∧
      DeleteResult.deleted ≠ DeleteResult.notFound :=
  ⟨rfl, by decide⟩

/-- Claim C9 (amended): `deleteById` reports success regardless of
whether the id exists; a delete of a missing id leaves the store
unchanged and is indistinguishable from the deletion of an existing
record.  The handler never reports `NotFound`. -/
theorem deleteById_always_reports_success (store : List Prediction)
    (i : ℕ) :
    (deleteById store i).2 = DeleteResult.deleted ∧
      ((∀ r ∈ store, r.id ≠ i) → (deleteById store i).1 = store) := by
  refine ⟨rfl, fun h => ?_⟩
  unfold deleteById
  dsimp only
  rw [List.filter_eq_self.mpr]
  intro a ha
  simpa using h a ha

/-- Witness for C9 on the empty store. -/
theorem deleteById_always_reports_success_witness :
    (deleteById [] 0).2 = DeleteResult.deleted ∧
      (deleteById [] 0).1 = [] :=
  ⟨(deleteById_always_reports_success [] 0).1,
    (deleteById_always_reports_success [] 0).2
      (fun r hr => absurd hr (List.not_mem_nil r))⟩

/-- Claim C10: the combined score-calculation routine never propagates
an exception to its caller: any resolution failure makes it return
`null` (its `try/catch` is modelled by the `Except`-to-`Option`
collapse); a creation with a due target date whose informational
current-price fetch succeeded persists a record carrying the
possibly-null score even when the score resolution failed; and the sweep
path decides skip-or-update purely by testing the returned score for
null. -/
theorem calculateScore_null_on_failure_and_null_drives_updates
    (fetch : CacheKey → FetchOutcome) (c : Cache) (now : ℤ) (pr : ℝ)
    (d today : ℤ) :
    (∀ msg, (resolvePrice fetch c (keyFor today d) now).result =
        Except.error msg →
      (calculateScore fetch c now pr d today).1 = none) ∧
    (∀ (nm : String) (src : Option String) (nextId : ℕ)
        (store : List Prediction) (cp : ℝ),
      fetch CacheKey.current = FetchOutcome.success cp →
      ¬ (nm = "" ∨ pr = 0) → d ≤ today →
      createPrediction fetch c now today nextId store
          ⟨some nm, some pr, some d, src⟩ =
        (store ++ [⟨nextId, nm, pr, d, Status.completed,
            (calculateScore fetch c now pr d today).1, some cp, src⟩],
          CreateResult.created ⟨nextId, nm, pr, d, Status.completed,
            (calculateScore fetch c now pr d today).1, some cp, src⟩,
          (calculateScore fetch c now pr d today).2)) ∧
    (∀ r : Prediction,
      ((calculateScore fetch c now r.price r.date today).1 = none →
        (settlePrediction fetch now today c r).1 = r) ∧
      (∀ v, (calculateScore fetch c now r.price r.date today).1 = some v →
        (settlePrediction fetch now today c r).1 =
          { r with status := Status.completed, score := some v })) := by
  refine ⟨?_, ?_, ?_⟩
  · intro msg h
    rw [calculateScore_of_error fetch c now pr d today msg h]
  · intro nm src nextId store cp hfc hval hdt
    unfold createPrediction
    dsimp only
    rw [if_neg hval, hfc]
    dsimp only
    rw [if_pos hdt]
  · intro r
    constructor
    · intro h
      unfold settlePrediction
      rcases hcs : calculateScore fetch c now r.price r.date today with ⟨sc, c2⟩
      rw [hcs] at h
      obtain rfl : sc = none := h
      rfl
    · intro v h
      unfold settlePrediction
      rcases hcs : calculateScore fetch c now r.price r.date today with ⟨sc, c2⟩
      rw [hcs] at h
      obtain rfl : sc = some v := h
      rfl

/-- Witness for C10, first part, at a failing oracle. -/
theorem calculateScore_null_on_failure_witness :
    (calculateScore (fun _ => FetchOutcome.networkError) (fun _ => none)
        0 100 10 20).1 = none :=
  (calculateScore_null_on_failure_and_null_drives_updates
      (fun _ => FetchOutcome.networkError) (fun _ => none) 0 100 10 20).1
    "fetch rejected" rfl

end

end Philify
